import Mathlib

/-!
Verification development for the declaration-tree resolution and bundle-merge
engine of the dagster-components builder
(dagster_components/core/component_defs_builder.py).

Identifiers (paths, type names, artifact names, configuration blobs) are
modelled as natural numbers; mappings keyed by name are association lists
with first-match lookup. The declaration node type, the flattener
resolve_decl_node_to_yaml_decls, the entry points
build_components_from_component_folder, build_defs_from_component_path,
defs_from_components and build_component_defs are translated from the source.
Collaborators that live outside the source file (the load context and its
derivations, the Definitions merge engine, the declaration source
path_to_decl_node, node loading, and the code-location project context) are
modelled from the spec, as marked on each definition.
-/

namespace DagsterComponents

/-- Association list from names to values; lookup takes the first match. -/
abbrev NameMap := List (Nat × Nat)

/-- First-match lookup in a name map. -/
def lookupName : NameMap → Nat → Option Nat
  | [], _ => none
  | (k, v) :: rest, n => if k = n then some v else lookupName rest n

/-- Leaf declaration: one component instance's folder path, type name and raw
templated configuration (spec section 3, Leaf). -/
structure YamlComponentDecl where
  path : Nat
  type_name : Nat
  raw_config : Nat
deriving DecidableEq, Repr

/-- Declaration node: the closed Leaf/Folder sum from the source, plus an
`unknown` constructor standing for any foreign subclass of the Python base
class ComponentDeclNode that is neither YamlComponentDecl nor
ComponentFolder (the branch that the source's flattener rejects). -/
inductive ComponentDeclNode where
  | yaml (decl : YamlComponentDecl)
  | folder (path : Nat) (sub_decls : List ComponentDeclNode)
  | unknown (tag : Nat)

/-- Error kinds raised by the builder. `notImplemented` is the
NotImplementedError of the flattener (the spec's UnknownNodeKind),
`noComponentFound` the Exception of build_defs_from_component_path (the
spec's NotFound), `assertionFailed` the isinstance assertion of
build_components_from_component_folder, `duplicateArtifactName` the merge
collision, and `loadError` / `componentBuildError` the failures of leaf
resolution and of a component's own build step. -/
inductive BuilderError where
  | notImplemented (tag : Nat)
  | noComponentFound (path : Nat)
  | assertionFailed
  | duplicateArtifactName (name : Nat)
  | loadError (code : Nat)
  | componentBuildError (code : Nat)
deriving DecidableEq, Repr

mutual

/-- Flattener from the source: a YamlComponentDecl resolves to the singleton
list of itself, a ComponentFolder to the concatenation of its sub_decls'
resolutions in order, and any other node raises NotImplementedError. -/
def resolve_decl_node_to_yaml_decls : ComponentDeclNode → Except BuilderError (List YamlComponentDecl)
  | .yaml d => .ok [d]
  | .folder _ subs => resolveSubDecls subs
  | .unknown tag => .error (.notImplemented tag)

/-- The loop of the flattener: extend the accumulated leaf list with the
resolution of each sub-declaration in order, propagating the first error. -/
def resolveSubDecls : List ComponentDeclNode → Except BuilderError (List YamlComponentDecl)
  | [] => .ok []
  | d :: rest => do
    let l ← resolve_decl_node_to_yaml_decls d
    let r ← resolveSubDecls rest
    .ok (l ++ r)

end

mutual

/-- A node is known when every node in it is a Leaf or a Folder: no
`unknown` constructor occurs anywhere in the tree. -/
def knownNode : ComponentDeclNode → Bool
  | .yaml _ => true
  | .folder _ subs => knownList subs
  | .unknown _ => false

/-- All nodes of the list are known. -/
def knownList : List ComponentDeclNode → Bool
  | [] => true
  | d :: rest => knownNode d && knownList rest

end

mutual

/-- Specification-side flattening: the ordered list of leaves of a tree,
depth first, preserving child order (spec section 4.2). -/
def declLeaves : ComponentDeclNode → List YamlComponentDecl
  | .yaml d => [d]
  | .folder _ subs => leavesList subs
  | .unknown _ => []

/-- Concatenation, in child order, of the leaves of each node. -/
def leavesList : List ComponentDeclNode → List YamlComponentDecl
  | [] => []
  | d :: rest => declLeaves d ++ leavesList rest

end

/-- Modelled from the spec: the Load Context (spec section 3): resources,
registry (type name to component type descriptor), the declaration node the
context is scoped to, the templated value resolver (an external pure
collaborator, represented by an identifier; TemplatedValueResolver.default()
is resolver 0), and the rendering scope visible to template evaluation.
The class itself lives outside the source file; its shape follows the
spec's Load Context. -/
structure ComponentLoadContext where
  resources : NameMap
  registry : NameMap
  decl_node : ComponentDeclNode
  templated_value_resolver : Nat
  rendering_scope : NameMap

/-- Modelled from the spec: scope-expanding derivation (spec section 4.4,
with_added_scope): a new context whose rendering scope is the old scope
with the extra entries prepended, so that under first-match lookup the
extra keys take precedence; every other field is unchanged. This is the
with_rendering_scope method the source calls on ComponentLoadContext. -/
def ComponentLoadContext.with_rendering_scope (ctx : ComponentLoadContext)
    (extra : NameMap) : ComponentLoadContext :=
  { ctx with rendering_scope := extra ++ ctx.rendering_scope }

/-- Modelled from the spec: node-refocusing derivation (spec section 4.4,
for_node): the same context with only the current declaration node
replaced. This is the for_decl_node method the source calls. -/
def ComponentLoadContext.for_decl_node (ctx : ComponentLoadContext)
    (node : ComponentDeclNode) : ComponentLoadContext :=
  { ctx with decl_node := node }

/-- Specification-side derivation, following the words of spec section 4.4:
rendering_scope replaced by the union of the old scope and extra, with
extra's keys taking precedence on collision; the union here is computed as
a duplicate-free association list (extra entries, then the old entries
whose keys extra does not bind). Stated separately from
with_rendering_scope so the two can be compared. -/
def ComponentLoadContext.with_added_scope_spec (ctx : ComponentLoadContext)
    (extra : NameMap) : ComponentLoadContext :=
  { resources := ctx.resources
    registry := ctx.registry
    decl_node := ctx.decl_node
    templated_value_resolver := ctx.templated_value_resolver
    rendering_scope :=
      extra ++ ctx.rendering_scope.filter (fun p => (lookupName extra p.1).isNone) }

/-- Modelled from the spec: Artifact Bundle (spec section 3): a mapping from
artifact name to artifact object plus, separately, the resource mapping.
This stands for the Definitions class, which lives outside the source
file. -/
structure Definitions where
  artifacts : NameMap
  resources : NameMap
deriving DecidableEq, Repr

/-- Modelled from the spec: Component capability (spec sections 3 and 6): an
additional rendering scope the component declares for itself, and the
artifact-bundle construction step, which may fail. get_additional_scope
and build_defs are the methods the source calls on Component. -/
structure Component where
  get_additional_scope : NameMap
  build_defs : ComponentLoadContext → Except BuilderError Definitions

/-- Modelled from the spec: one step of the Merge Engine on artifact maps
(spec section 4.6): entries of the second map are added to the first in
order; an entry whose name is already bound to the same value is dropped
(idempotent merge of identical content), and a name already bound to a
different value fails with DuplicateArtifactName. -/
def mergeArtifacts : NameMap → NameMap → Except BuilderError NameMap
  | acc, [] => .ok acc
  | acc, (n, v) :: rest =>
    match lookupName acc n with
    | none => mergeArtifacts (acc ++ [(n, v)]) rest
    | some w => if w = v then mergeArtifacts acc rest else .error (.duplicateArtifactName n)

/-- Modelled from the spec: pairwise bundle merge (spec section 4.6):
artifact maps merge with collision detection; resource entries from both
sides coexist (duplicate resource entries are permitted), kept in order. -/
def Definitions.mergePair (a b : Definitions) : Except BuilderError Definitions := do
  let arts ← mergeArtifacts a.artifacts b.artifacts
  .ok { artifacts := arts, resources := a.resources ++ b.resources }

/-- Merge of a sequence of bundles, left to right, starting from an
accumulated bundle. -/
def mergeListAux (acc : Definitions) : List Definitions → Except BuilderError Definitions
  | [] => .ok acc
  | b :: rest => do
    let m ← acc.mergePair b
    mergeListAux m rest

/-- Modelled from the spec: the variadic Definitions.merge the source calls:
pairwise merge of all given bundles in order, starting from the empty
bundle. -/
def Definitions.mergeList (bs : List Definitions) : Except BuilderError Definitions :=
  mergeListAux { artifacts := [], resources := [] } bs

/-- Effectful map over a list, in order, stopping at the first error: the
evaluation order of a Python list comprehension whose body may raise. -/
def mapEx {α β : Type} (f : α → Except BuilderError β) : List α → Except BuilderError (List β)
  | [] => .ok []
  | a :: rest => do
    let b ← f a
    let bs ← mapEx f rest
    .ok (b :: bs)

/-- The context under which defs_from_components asks a component to build:
the source expression context.with_rendering_scope(c.get_additional_scope()). -/
def componentBuildContext (ctx : ComponentLoadContext) (c : Component) : ComponentLoadContext :=
  ctx.with_rendering_scope c.get_additional_scope

/-- The per-component contexts of the source's list comprehension, in
component order. -/
def buildContextsUsed (ctx : ComponentLoadContext) (cs : List Component) :
    List ComponentLoadContext :=
  cs.map (componentBuildContext ctx)

/-- The bundles of the source's inner list comprehension: each component's
build_defs under its own derived context, in component order. -/
def builtBundles (ctx : ComponentLoadContext) (cs : List Component) :
    Except BuilderError (List Definitions) :=
  mapEx (fun c => c.build_defs (componentBuildContext ctx c)) cs

/-- defs_from_components from the source: merge of the components' bundles,
in sequence order, followed by one bundle holding only the given
resources. -/
def defs_from_components (ctx : ComponentLoadContext) (components : List Component)
    (resources : NameMap) : Except BuilderError Definitions := do
  let bs ← builtBundles ctx components
  Definitions.mergeList (bs ++ [{ artifacts := [], resources := resources }])

/-- Modelled from the spec: the declaration source and leaf resolver, both
outside the source file: path_to_decl_node builds the declaration tree for
a path (none when the path holds no recognizable declaration), and load is
the load method of declaration nodes, resolving a node under a context to
a sequence of components, possibly failing. -/
structure DeclSource where
  path_to_decl_node : Nat → Option ComponentDeclNode
  load : ComponentDeclNode → ComponentLoadContext → Except BuilderError (List Component)

/-- The context build_defs_from_component_path constructs: the given
resources and registry, the freshly built declaration node, the default
templated value resolver, and an empty rendering scope. -/
def initialLoadContext (resources registry : NameMap) (decl_node : ComponentDeclNode) :
    ComponentLoadContext :=
  { resources := resources
    registry := registry
    decl_node := decl_node
    templated_value_resolver := 0
    rendering_scope := [] }

/-- build_defs_from_component_path from the source: build the declaration
node for the path, fail when there is none, otherwise construct the load
context, load the node's components and hand them to
defs_from_components. -/
def build_defs_from_component_path (env : DeclSource) (path : Nat)
    (registry resources : NameMap) : Except BuilderError Definitions :=
  match env.path_to_decl_node path with
  | none => .error (.noComponentFound path)
  | some decl_node => do
    let context := initialLoadContext resources registry decl_node
    let components ← env.load decl_node context
    defs_from_components context components resources

/-- build_components_from_component_folder from the source: build the
declaration node for the path, assert that it is a ComponentFolder, and
load that folder under the context refocused on the folder node. -/
def build_components_from_component_folder (env : DeclSource)
    (context : ComponentLoadContext) (path : Nat) : Except BuilderError (List Component) :=
  match env.path_to_decl_node path with
  | some (.folder p subs) =>
    env.load (.folder p subs) (context.for_decl_node (.folder p subs))
  | _ => .error .assertionFailed

/-- Modelled from the spec: the code-location project context (spec section
6, resolve_all_under): the discovered component instances in discovery
order, the path of each instance, and the registry. Its construction
from_code_location_path (pyproject discovery, entry-point registry
population) is external. -/
structure CodeLocationProjectContext where
  component_instances : List Nat
  get_component_instance_path : Nat → Nat
  component_registry : NameMap

/-- build_component_defs from the source: for each discovered component
instance, in order, build the per-path bundle with
build_defs_from_component_path using the project registry and the given
resources (empty when absent), then merge all per-path bundles. -/
def build_component_defs (env : DeclSource) (projCtx : CodeLocationProjectContext)
    (resources : Option NameMap) : Except BuilderError Definitions := do
  let all_defs ← mapEx
    (fun inst => build_defs_from_component_path env
      (projCtx.get_component_instance_path inst)
      projCtx.component_registry (resources.getD []))
    projCtx.component_instances
  Definitions.mergeList all_defs

/-- A sample leaf declaration for concrete evaluations. -/
def dA : YamlComponentDecl := { path := 0, type_name := 1, raw_config := 2 }

/-- A second sample leaf declaration. -/
def dB : YamlComponentDecl := { path := 3, type_name := 4, raw_config := 5 }

/-- A sample component contributing artifact 1 and declaring additional
scope for key 5. -/
def compX : Component :=
  { get_additional_scope := [(5, 50)]
    build_defs := fun _ => .ok { artifacts := [(1, 11)], resources := [] } }

/-- A sample component contributing artifact 2 and a resource entry. -/
def compY : Component :=
  { get_additional_scope := []
    build_defs := fun _ => .ok { artifacts := [(2, 22)], resources := [(9, 90)] } }

/-- A sample component whose build step fails. -/
def compFail : Component :=
  { get_additional_scope := []
    build_defs := fun _ => .error (.componentBuildError 7) }

/-- A sample load context for concrete evaluations. -/
def sampleCtx : ComponentLoadContext :=
  { resources := [(3, 30)]
    registry := [(4, 40)]
    decl_node := .yaml dA
    templated_value_resolver := 0
    rendering_scope := [(6, 60)] }

/-- A sample declaration source: path 1 resolves to a folder with one leaf,
every other path to nothing; loading yields compX. -/
def sampleSource : DeclSource :=
  { path_to_decl_node := fun p => if p = 1 then some (.folder 1 [.yaml dA]) else none
    load := fun _ _ => .ok [compX] }

/-- A sample declaration source whose leaf resolution always fails. -/
def failingSource : DeclSource :=
  { path_to_decl_node := fun _ => some (.yaml dA)
    load := fun _ _ => .error (.loadError 3) }

/-- A sample declaration source for the multi-path entry point: each path p
resolves to a leaf at p, and loading yields compX for path 1 and compY
elsewhere. -/
def multiSource : DeclSource :=
  { path_to_decl_node := fun p => some (.yaml { path := p, type_name := 0, raw_config := 0 })
    load := fun n _ =>
      match n with
      | .yaml d => .ok [if d.path = 1 then compX else compY]
      | _ => .error (.loadError 0) }

/-- A sample project context discovering instances 1 and 2, each at a path
equal to its own identifier. -/
def sampleProject : CodeLocationProjectContext :=
  { component_instances := [1, 2]
    get_component_instance_path := fun i => i
    component_registry := [] }

theorem leavesList_eq_flatten (l : List ComponentDeclNode) :
    leavesList l = (l.map declLeaves).flatten := by
  induction l with
  | nil => simp [leavesList]
  | cons d rest ih => simp [leavesList, ih]

theorem exceptOkBind {α β : Type} (a : α) (f : α → Except BuilderError β) :
    (Except.ok a >>= f) = f a := rfl

theorem exceptErrBind {α β : Type} (e : BuilderError) (f : α → Except BuilderError β) :
    ((Except.error e : Except BuilderError α) >>= f) = .error e := rfl

mutual

theorem resolve_known : ∀ (n : ComponentDeclNode), knownNode n = true →
    resolve_decl_node_to_yaml_decls n = .ok (declLeaves n)
  | .yaml d, _ => by
    simp [resolve_decl_node_to_yaml_decls, declLeaves]
  | .folder p subs, h => by
    have hs : knownList subs = true := by simpa [knownNode] using h
    have := resolveSubDecls_known subs hs
    simp [resolve_decl_node_to_yaml_decls, declLeaves, this]
  | .unknown t, h => by simp [knownNode] at h

theorem resolveSubDecls_known : ∀ (l : List ComponentDeclNode), knownList l = true →
    resolveSubDecls l = .ok (leavesList l)
  | [], _ => by simp [resolveSubDecls, leavesList]
  | d :: rest, h => by
    have h1 : knownNode d = true ∧ knownList rest = true := by
      simpa [knownList, Bool.and_eq_true] using h
    have hd := resolve_known d h1.1
    have hr := resolveSubDecls_known rest h1.2
    simp [resolveSubDecls, leavesList, hd, hr, exceptOkBind]

end

theorem lookupName_append (a b : NameMap) (n : Nat) :
    lookupName (a ++ b) n = (lookupName a n <|> lookupName b n) := by
  induction a with
  | nil => simp [lookupName]
  | cons p rest ih =>
    obtain ⟨k, v⟩ := p
    by_cases h : k = n <;> simp [lookupName, h, ih]

theorem mergeArtifacts_ok_mem : ∀ (l acc r : NameMap), mergeArtifacts acc l = .ok r →
    ∀ n, (lookupName r n).isSome ↔ ((lookupName acc n).isSome ∨ (lookupName l n).isSome)
  | [], acc, r, h, n => by
    simp [mergeArtifacts] at h
    subst h
    simp [lookupName]
  | (k, v) :: rest, acc, r, h, n => by
    rw [mergeArtifacts] at h
    split at h
    next hl =>
      have ih := mergeArtifacts_ok_mem rest (acc ++ [(k, v)]) r h n
      rw [ih, lookupName_append]
      by_cases hk : k = n
      · subst hk
        simp [lookupName, hl]
      · simp [lookupName, hk]
    next w hl =>
      split at h
      next hw =>
        subst hw
        have ih := mergeArtifacts_ok_mem rest acc r h n
        rw [ih]
        by_cases hk : k = n
        · subst hk
          simp [lookupName, hl]
        · simp [lookupName, hk]
      next hw =>
        exact absurd h (by simp)

theorem mergePair_ok (a b m : Definitions) (h : a.mergePair b = .ok m) :
    (∀ n, (lookupName m.artifacts n).isSome ↔
      ((lookupName a.artifacts n).isSome ∨ (lookupName b.artifacts n).isSome))
    ∧ m.resources = a.resources ++ b.resources := by
  rw [Definitions.mergePair] at h
  cases ha : mergeArtifacts a.artifacts b.artifacts with
  | error e => rw [ha] at h; exact absurd h (by simp [exceptErrBind])
  | ok arts =>
    rw [ha] at h
    rw [exceptOkBind] at h
    have hm : m = { artifacts := arts, resources := a.resources ++ b.resources } := by
      cases h; rfl
    subst hm
    exact ⟨fun n => mergeArtifacts_ok_mem b.artifacts a.artifacts arts ha n, rfl⟩

theorem mergeListAux_ok_mem : ∀ (bs : List Definitions) (acc d : Definitions),
    mergeListAux acc bs = .ok d →
    ∀ n, (lookupName d.artifacts n).isSome ↔
      ((lookupName acc.artifacts n).isSome ∨ ∃ b ∈ bs, (lookupName b.artifacts n).isSome)
  | [], acc, d, h, n => by
    simp [mergeListAux] at h
    subst h
    simp
  | b :: rest, acc, d, h, n => by
    rw [mergeListAux] at h
    cases hm : acc.mergePair b with
    | error e => rw [hm] at h; exact absurd h (by simp [exceptErrBind])
    | ok m =>
      rw [hm] at h
      rw [exceptOkBind] at h
      have ih := mergeListAux_ok_mem rest m d h n
      have hp := (mergePair_ok acc b m hm).1 n
      rw [ih, hp]
      simp only [List.mem_cons]
      constructor
      · rintro (⟨ha | hb⟩ | ⟨x, hx, hs⟩)
        · exact Or.inl ha
        · exact Or.inr ⟨b, Or.inl rfl, hb⟩
        · exact Or.inr ⟨x, Or.inr hx, hs⟩
      · rintro (ha | ⟨x, hx | hx, hs⟩)
        · exact Or.inl (Or.inl ha)
        · subst hx; exact Or.inl (Or.inr hs)
        · exact Or.inr ⟨x, hx, hs⟩

theorem mergeListAux_ok_resources : ∀ (bs : List Definitions) (acc d : Definitions),
    mergeListAux acc bs = .ok d →
    d.resources = acc.resources ++ (bs.map Definitions.resources).flatten
  | [], acc, d, h => by
    simp [mergeListAux] at h
    subst h
    simp
  | b :: rest, acc, d, h => by
    rw [mergeListAux] at h
    cases hm : acc.mergePair b with
    | error e => rw [hm] at h; exact absurd h (by simp [exceptErrBind])
    | ok m =>
      rw [hm] at h
      rw [exceptOkBind] at h
      have ih := mergeListAux_ok_resources rest m d h
      have hp := (mergePair_ok acc b m hm).2
      simp [ih, hp, List.append_assoc]

theorem mergeList_ok_mem (bs : List Definitions) (d : Definitions)
    (h : Definitions.mergeList bs = .ok d) :
    ∀ n, (lookupName d.artifacts n).isSome ↔ ∃ b ∈ bs, (lookupName b.artifacts n).isSome := by
  intro n
  have := mergeListAux_ok_mem bs { artifacts := [], resources := [] } d h n
  simpa [lookupName] using this

theorem mergeList_ok_resources (bs : List Definitions) (d : Definitions)
    (h : Definitions.mergeList bs = .ok d) :
    d.resources = (bs.map Definitions.resources).flatten := by
  have := mergeListAux_ok_resources bs { artifacts := [], resources := [] } d h
  simpa using this

theorem mapEx_ok_forall {α β : Type} (f : α → Except BuilderError β) :
    ∀ (l : List α) (bs : List β), mapEx f l = .ok bs → ∀ a ∈ l, ∃ b, f a = .ok b
  | [], bs, _, a, ha => absurd ha (by simp)
  | x :: rest, bs, h, a, ha => by
    rw [mapEx] at h
    cases hx : f x with
    | error e => rw [hx] at h; exact absurd h (by simp [exceptErrBind])
    | ok b =>
      rw [hx] at h
      rw [exceptOkBind] at h
      cases hr : mapEx f rest with
      | error e => rw [hr] at h; exact absurd h (by simp [exceptErrBind])
      | ok brest =>
        rcases List.mem_cons.1 ha with hax | hax
        · subst hax; exact ⟨b, hx⟩
        · exact mapEx_ok_forall f rest brest hr a hax

theorem mapEx_first_error {α β : Type} (f : α → Except BuilderError β) :
    ∀ (l1 : List α) (a : α) (l2 : List α) (e : BuilderError),
    (∀ x ∈ l1, ∃ b, f x = .ok b) → f a = .error e →
    mapEx f (l1 ++ a :: l2) = .error e
  | [], a, l2, e, _, hae => by
    simp only [List.nil_append]
    rw [mapEx, hae, exceptErrBind]
  | x :: rest, a, l2, e, hall, hae => by
    obtain ⟨b, hb⟩ := hall x (by simp)
    have ih := mapEx_first_error f rest a l2 e (fun y hy => hall y (by simp [hy])) hae
    simp only [List.cons_append]
    rw [mapEx, hb, exceptOkBind, ih, exceptErrBind]

theorem mapEx_all_ok {α β : Type} (f : α → Except BuilderError β) :
    ∀ (l : List α), (∀ a ∈ l, ∃ b, f a = .ok b) → ∃ bs, mapEx f l = .ok bs
  | [], _ => ⟨[], rfl⟩
  | x :: rest, hall => by
    obtain ⟨b, hb⟩ := hall x (by simp)
    obtain ⟨bs, hbs⟩ := mapEx_all_ok f rest (fun y hy => hall y (by simp [hy]))
    exact ⟨b :: bs, by rw [mapEx, hb, exceptOkBind, hbs, exceptOkBind]⟩

theorem lookupName_filter_none (extra old : NameMap) (k : Nat)
    (h : lookupName extra k = none) :
    lookupName (old.filter (fun p => (lookupName extra p.1).isNone)) k = lookupName old k := by
  induction old with
  | nil => simp
  | cons p rest ih =>
    obtain ⟨a, b⟩ := p
    by_cases ha : a = k
    · subst ha
      simp [List.filter_cons, h, lookupName]
    · by_cases hp : (lookupName extra a).isNone
      · simp [List.filter_cons, hp, lookupName, ha, ih]
      · simp [List.filter_cons, hp, lookupName, ha, ih]

theorem knownList_map_yaml (ds : List YamlComponentDecl) :
    knownList (ds.map ComponentDeclNode.yaml) = true := by
  induction ds with
  | nil => simp [knownList]
  | cons d rest ih => simp [knownList, knownNode, ih]

theorem leavesList_map_yaml (ds : List YamlComponentDecl) :
    leavesList (ds.map ComponentDeclNode.yaml) = ds := by
  induction ds with
  | nil => simp [leavesList]
  | cons d rest ih => simp [leavesList, declLeaves, ih]

theorem resolve_folder_of_yaml_list (p : Nat) (ds : List YamlComponentDecl) :
    resolve_decl_node_to_yaml_decls (.folder p (ds.map ComponentDeclNode.yaml)) = .ok ds := by
  have h := resolve_known (.folder p (ds.map ComponentDeclNode.yaml))
    (by simp [knownNode, knownList_map_yaml])
  rw [h]
  simp [declLeaves, leavesList_map_yaml]

theorem defs_from_components_ok (ctx : ComponentLoadContext) (cs : List Component)
    (res : NameMap) (d : Definitions) (h : defs_from_components ctx cs res = .ok d) :
    ∃ bs, builtBundles ctx cs = .ok bs
      ∧ Definitions.mergeList (bs ++ [{ artifacts := [], resources := res }]) = .ok d := by
  rw [defs_from_components] at h
  cases hb : builtBundles ctx cs with
  | error e => rw [hb] at h; exact absurd h (by simp [exceptErrBind])
  | ok bs =>
    rw [hb] at h
    rw [exceptOkBind] at h
    exact ⟨bs, rfl, h⟩

theorem builtBundles_first_error (ctx : ComponentLoadContext) (cs1 : List Component)
    (c : Component) (cs2 : List Component) (e : BuilderError)
    (hall : ∀ x ∈ cs1, ∃ b, x.build_defs (componentBuildContext ctx x) = .ok b)
    (hc : c.build_defs (componentBuildContext ctx c) = .error e) :
    builtBundles ctx (cs1 ++ c :: cs2) = .error e :=
  mapEx_first_error _ cs1 c cs2 e hall hc

/-- C1: defs_from_components returns the merge of exactly the bundles built
by each component in sequence order together with one additional bundle
holding only the base resources: the merged result is determined by that
bundle list, an artifact name is present in the result exactly when some
bundle of that list carries it, and the result's resources are the
components' resources in order followed by the base resources. -/
theorem C1_defs_from_components_merges_exact_bundles
    (ctx : ComponentLoadContext) (cs : List Component) (res : NameMap)
    (bs : List Definitions) (d : Definitions)
    (hb : builtBundles ctx cs = .ok bs)
    (hd : defs_from_components ctx cs res = .ok d) :
    Definitions.mergeList (bs ++ [{ artifacts := [], resources := res }]) = .ok d
    ∧ (∀ n, (lookupName d.artifacts n).isSome ↔
        ∃ b ∈ bs ++ [({ artifacts := [], resources := res } : Definitions)],
          (lookupName b.artifacts n).isSome)
    ∧ d.resources = (bs.map Definitions.resources).flatten ++ res := by
  obtain ⟨bs2, hb2, hm⟩ := defs_from_components_ok ctx cs res d hd
  rw [hb] at hb2
  have hbs : bs = bs2 := by simpa using hb2
  subst hbs
  refine ⟨hm, fun n => mergeList_ok_mem _ d hm n, ?_⟩
  have hr := mergeList_ok_resources _ d hm
  simpa using hr

/-- C1 witness: with two concrete components and concrete base resources,
the hypotheses of C1 hold and the merged bundle is what the theorem
describes. -/
theorem C1_defs_from_components_witness :
    Definitions.mergeList
        ([{ artifacts := [(1, 11)], resources := [] },
          { artifacts := [(2, 22)], resources := [(9, 90)] }]
          ++ [{ artifacts := [], resources := [(3, 30)] }])
      = .ok { artifacts := [(1, 11), (2, 22)], resources := [(9, 90), (3, 30)] } :=
  (C1_defs_from_components_merges_exact_bundles sampleCtx [compX, compY] [(3, 30)]
    [{ artifacts := [(1, 11)], resources := [] },
     { artifacts := [(2, 22)], resources := [(9, 90)] }]
    { artifacts := [(1, 11), (2, 22)], resources := [(9, 90), (3, 30)] }
    rfl rfl).1

/-- C2: the bundle-build step applies each component's build_defs to
exactly the context derived from the base context with that component's
own additional scope: the derived context agrees with the spec's
with_added_scope derivation on every scope lookup, its scope resolves a
key to the component's additional value when the component binds it and to
the base context's value otherwise, and all other fields of the base
context are unchanged. -/
theorem C2_bundle_built_under_own_added_scope (ctx : ComponentLoadContext)
    (c : Component) (cs : List Component) :
    builtBundles ctx cs = mapEx (fun x => x.build_defs (componentBuildContext ctx x)) cs
    ∧ componentBuildContext ctx c = ctx.with_rendering_scope c.get_additional_scope
    ∧ (∀ k, lookupName (componentBuildContext ctx c).rendering_scope k
        = lookupName (ctx.with_added_scope_spec c.get_additional_scope).rendering_scope k)
    ∧ (∀ k, lookupName (componentBuildContext ctx c).rendering_scope k
        = (lookupName c.get_additional_scope k <|> lookupName ctx.rendering_scope k))
    ∧ (componentBuildContext ctx c).resources = ctx.resources
    ∧ (componentBuildContext ctx c).registry = ctx.registry
    ∧ (componentBuildContext ctx c).decl_node = ctx.decl_node
    ∧ (componentBuildContext ctx c).templated_value_resolver
        = ctx.templated_value_resolver := by
  refine ⟨rfl, rfl, ?_, ?_, rfl, rfl, rfl, rfl⟩
  · intro k
    simp only [componentBuildContext, ComponentLoadContext.with_rendering_scope,
      ComponentLoadContext.with_added_scope_spec, lookupName_append]
    cases he : lookupName c.get_additional_scope k with
    | some v => simp
    | none => simp [lookupName_filter_none _ _ _ he]
  · intro k
    simp only [componentBuildContext, ComponentLoadContext.with_rendering_scope,
      lookupName_append]

/-- C3: scope additions are local to each component's derivation chain:
replacing any other component of the sequence leaves the context derived
for position i unchanged, a key that a component does not bind resolves in
its build context exactly as in the base context, and a key the component
does bind resolves to the component's own value. -/
theorem C3_sibling_scope_isolation (ctx : ComponentLoadContext) (cs : List Component)
    (i j : Nat) (B : Component) (hij : i ≠ j) :
    (buildContextsUsed ctx (cs.set j B))[i]? = (buildContextsUsed ctx cs)[i]?
    ∧ (∀ (A : Component) (k : Nat), lookupName A.get_additional_scope k = none →
        lookupName (componentBuildContext ctx A).rendering_scope k
          = lookupName ctx.rendering_scope k)
    ∧ (∀ (A : Component) (k v : Nat), lookupName A.get_additional_scope k = some v →
        lookupName (componentBuildContext ctx A).rendering_scope k = some v) := by
  refine ⟨?_, ?_, ?_⟩
  · rw [buildContextsUsed, buildContextsUsed, List.map_set]
    exact List.getElem?_set_ne (fun h => hij h.symm)
  · intro A k hk
    rw [componentBuildContext, ComponentLoadContext.with_rendering_scope]
    simp [lookupName_append, hk]
  · intro A k v hk
    rw [componentBuildContext, ComponentLoadContext.with_rendering_scope]
    simp [lookupName_append, hk]

/-- C3 witness: with concrete components, replacing the second component
does not change the context the first builds under, and a key absent from
compY's additional scope resolves as in the base context. -/
theorem C3_sibling_scope_isolation_witness :
    (buildContextsUsed sampleCtx ([compX, compY].set 1 compFail))[0]?
      = (buildContextsUsed sampleCtx [compX, compY])[0]?
    ∧ lookupName (componentBuildContext sampleCtx compY).rendering_scope 6
      = lookupName sampleCtx.rendering_scope 6 := by
  have h := C3_sibling_scope_isolation sampleCtx [compX, compY] 0 1 compFail (by decide)
  exact ⟨h.1, h.2.1 compY 6 (by rfl)⟩

/-- C4: flattening a Leaf yields the singleton sequence of that leaf;
flattening a Folder yields the concatenation, in child order, of the
flattenings of its children; in particular a Folder whose children are
exactly a listing of leaves flattens to those leaves in listing order. -/
theorem C4_flattener_structure :
    (∀ d, resolve_decl_node_to_yaml_decls (.yaml d) = .ok [d])
    ∧ (∀ p subs, knownList subs = true →
        resolve_decl_node_to_yaml_decls (.folder p subs)
          = .ok ((subs.map declLeaves).flatten))
    ∧ (∀ p (ds : List YamlComponentDecl),
        resolve_decl_node_to_yaml_decls (.folder p (ds.map ComponentDeclNode.yaml))
          = .ok ds) := by
  refine ⟨fun d => by simp [resolve_decl_node_to_yaml_decls],
    fun p subs h => ?_, fun p ds => resolve_folder_of_yaml_list p ds⟩
  have hk := resolve_known (.folder p subs) (by simp [knownNode, h])
  rw [hk]
  simp [declLeaves, leavesList_eq_flatten]

/-- C4 witness: a folder with two leaf children flattens to exactly those
two leaves in listing order. -/
theorem C4_flattener_structure_witness :
    knownList [ComponentDeclNode.yaml dA, ComponentDeclNode.yaml dB] = true
    ∧ resolve_decl_node_to_yaml_decls (.folder 7 [.yaml dA, .yaml dB]) = .ok [dA, dB] := by
  refine ⟨by simp [knownList, knownNode], ?_⟩
  have h := C4_flattener_structure.2.1 7 [ComponentDeclNode.yaml dA, ComponentDeclNode.yaml dB]
    (by simp [knownList, knownNode])
  simpa [declLeaves] using h

/-- C5: flattening is idempotent: a Folder whose children are exactly the
flattening of a tree T, each reinterpreted as a leaf node, flattens to the
same sequence as T. -/
theorem C5_flatten_idempotent (T : ComponentDeclNode) (l : List YamlComponentDecl) (p : Nat)
    (_h : resolve_decl_node_to_yaml_decls T = .ok l) :
    resolve_decl_node_to_yaml_decls (.folder p (l.map ComponentDeclNode.yaml)) = .ok l :=
  resolve_folder_of_yaml_list p l

/-- C5 witness: the flattening of a concrete folder, reinterpreted as a
flat folder of leaves, flattens to the same sequence. -/
theorem C5_flatten_idempotent_witness :
    resolve_decl_node_to_yaml_decls (.folder 0 [.yaml dA, .yaml dB]) = .ok [dA, dB]
    ∧ resolve_decl_node_to_yaml_decls
        (.folder 1 ([dA, dB].map ComponentDeclNode.yaml)) = .ok [dA, dB] := by
  have h0 : resolve_decl_node_to_yaml_decls
      (.folder 0 [ComponentDeclNode.yaml dA, ComponentDeclNode.yaml dB]) = .ok [dA, dB] := by
    simp [resolve_decl_node_to_yaml_decls, resolveSubDecls, exceptOkBind]
  exact ⟨h0, C5_flatten_idempotent (.folder 0 [.yaml dA, .yaml dB]) [dA, dB] 1 h0⟩

/-- C6: a node outside the closed Leaf/Folder set makes the flattener fail
with the NotImplementedError carrying that node (the spec's
UnknownNodeKind) and never yields a sequence, while on every tree built
only from Leaf and Folder nodes the flattener succeeds, so the error
branch is unreachable there. -/
theorem C6_unknown_node_kind :
    (∀ tag, resolve_decl_node_to_yaml_decls (.unknown tag) = .error (.notImplemented tag)
      ∧ ∀ l, resolve_decl_node_to_yaml_decls (.unknown tag) ≠ .ok l)
    ∧ (∀ n, knownNode n = true → ∃ l, resolve_decl_node_to_yaml_decls n = .ok l) := by
  refine ⟨fun tag => ⟨by simp [resolve_decl_node_to_yaml_decls], fun l hl => ?_⟩,
    fun n hn => ⟨declLeaves n, resolve_known n hn⟩⟩
  simp [resolve_decl_node_to_yaml_decls] at hl

/-- C6 witness: a concrete known tree is accepted by the flattener. -/
theorem C6_unknown_node_kind_witness :
    knownNode (ComponentDeclNode.folder 2 [.yaml dA]) = true
    ∧ ∃ l, resolve_decl_node_to_yaml_decls (.folder 2 [.yaml dA]) = .ok l :=
  ⟨by simp [knownNode, knownList],
    C6_unknown_node_kind.2 (.folder 2 [.yaml dA]) (by simp [knownNode, knownList])⟩

/-- C7: when the path resolves to no declaration node the single-path entry
point fails with the NotFound error carrying the path; when it resolves to
a node, the entry point proceeds to load that node under the freshly
constructed context and hand its components to defs_from_components; and
the entry point never returns a bundle unless the path resolved to some
node. -/
theorem C7_not_found_on_unresolved_path (env : DeclSource) (path : Nat)
    (registry resources : NameMap) :
    (env.path_to_decl_node path = none →
      build_defs_from_component_path env path registry resources
        = .error (.noComponentFound path))
    ∧ (∀ node, env.path_to_decl_node path = some node →
      build_defs_from_component_path env path registry resources
        = (env.load node (initialLoadContext resources registry node) >>= fun components =>
            defs_from_components (initialLoadContext resources registry node)
              components resources))
    ∧ (∀ d, build_defs_from_component_path env path registry resources = .ok d →
        ∃ node, env.path_to_decl_node path = some node) := by
  refine ⟨fun h => ?_, fun node h => ?_, fun d hd => ?_⟩
  · simp [build_defs_from_component_path, h]
  · simp [build_defs_from_component_path, h]
  · cases hp : env.path_to_decl_node path with
    | none =>
      rw [build_defs_from_component_path] at hd
      rw [hp] at hd
      exact absurd hd (by simp)
    | some node => exact ⟨node, rfl⟩

/-- C7 witness: a concrete source resolves path 2 to nothing and the entry
point fails there with NotFound. -/
theorem C7_not_found_witness :
    sampleSource.path_to_decl_node 2 = none
    ∧ build_defs_from_component_path sampleSource 2 [] []
        = .error (.noComponentFound 2) :=
  ⟨rfl, (C7_not_found_on_unresolved_path sampleSource 2 [] []).1 rfl⟩

/-- C8: failures propagate unchanged and no bundle accompanies an error: a
failing leaf resolution makes the single-path entry point return exactly
that error; the first failing component build makes defs_from_components
return exactly that error; a successful defs_from_components means every
component's build succeeded; a failing defs_from_components propagates
through the single-path entry point unchanged; and a failing per-path
build makes the multi-path entry point return exactly that error. -/
theorem C8_errors_propagate_without_partial_bundle :
    (∀ (env : DeclSource) (path : Nat) (registry resources : NameMap)
        (node : ComponentDeclNode) (e : BuilderError),
      env.path_to_decl_node path = some node →
      env.load node (initialLoadContext resources registry node) = .error e →
      build_defs_from_component_path env path registry resources = .error e)
    ∧ (∀ (ctx : ComponentLoadContext) (cs1 : List Component) (c : Component)
        (cs2 : List Component) (res : NameMap) (e : BuilderError),
      (∀ x ∈ cs1, ∃ b, x.build_defs (componentBuildContext ctx x) = .ok b) →
      c.build_defs (componentBuildContext ctx c) = .error e →
      defs_from_components ctx (cs1 ++ c :: cs2) res = .error e)
    ∧ (∀ (ctx : ComponentLoadContext) (cs : List Component) (res : NameMap)
        (d : Definitions), defs_from_components ctx cs res = .ok d →
      ∀ x ∈ cs, ∃ b, x.build_defs (componentBuildContext ctx x) = .ok b)
    ∧ (∀ (env : DeclSource) (path : Nat) (registry resources : NameMap)
        (node : ComponentDeclNode) (components : List Component) (e : BuilderError),
      env.path_to_decl_node path = some node →
      env.load node (initialLoadContext resources registry node) = .ok components →
      defs_from_components (initialLoadContext resources registry node)
          components resources = .error e →
      build_defs_from_component_path env path registry resources = .error e)
    ∧ (∀ (env : DeclSource) (projCtx : CodeLocationProjectContext) (res : Option NameMap)
        (insts1 : List Nat) (inst : Nat) (insts2 : List Nat) (e : BuilderError),
      projCtx.component_instances = insts1 ++ inst :: insts2 →
      (∀ x ∈ insts1, ∃ b, build_defs_from_component_path env
          (projCtx.get_component_instance_path x) projCtx.component_registry
          (res.getD []) = .ok b) →
      build_defs_from_component_path env (projCtx.get_component_instance_path inst)
          projCtx.component_registry (res.getD []) = .error e →
      build_component_defs env projCtx res = .error e) := by
  refine ⟨?_, ?_, ?_, ?_, ?_⟩
  · intro env path registry resources node e hp hl
    simp [build_defs_from_component_path, hp, hl, exceptErrBind]
  · intro ctx cs1 c cs2 res e hall hc
    have hb := builtBundles_first_error ctx cs1 c cs2 e hall hc
    rw [defs_from_components, hb, exceptErrBind]
  · intro ctx cs res d hd
    obtain ⟨bs, hb, _⟩ := defs_from_components_ok ctx cs res d hd
    exact mapEx_ok_forall _ cs bs hb
  · intro env path registry resources node components e hp hl hdefs
    simp [build_defs_from_component_path, hp, hl, exceptOkBind, hdefs]
  · intro env projCtx res insts1 inst insts2 e hsplit hall herr
    have hm := mapEx_first_error
      (fun inst => build_defs_from_component_path env
        (projCtx.get_component_instance_path inst) projCtx.component_registry
        (res.getD []))
      insts1 inst insts2 e hall herr
    rw [build_component_defs, hsplit, hm, exceptErrBind]

/-- C8 witness: a concrete source whose leaf resolution fails makes the
single-path entry point return exactly that error. -/
theorem C8_errors_propagate_witness :
    failingSource.path_to_decl_node 0 = some (.yaml dA)
    ∧ failingSource.load (.yaml dA) (initialLoadContext [] [] (.yaml dA))
        = .error (.loadError 3)
    ∧ build_defs_from_component_path failingSource 0 [] [] = .error (.loadError 3) :=
  ⟨rfl, rfl,
    C8_errors_propagate_without_partial_bundle.1 failingSource 0 [] []
      (.yaml dA) (.loadError 3) rfl rfl⟩

/-- C9: the multi-path entry point resolves each discovered component
instance path to its own bundle, in discovery order, and returns exactly
the merge of those per-path bundles: the result is the merge of the
per-path bundle list, an artifact name is present in it exactly when some
per-path bundle carries it, and its resources are the per-path resources
concatenated in discovery order. -/
theorem C9_multi_path_exact_merge (env : DeclSource)
    (projCtx : CodeLocationProjectContext) (res : Option NameMap)
    (ds : List Definitions) (d : Definitions)
    (hmap : mapEx (fun inst => build_defs_from_component_path env
        (projCtx.get_component_instance_path inst) projCtx.component_registry
        (res.getD [])) projCtx.component_instances = .ok ds)
    (hd : build_component_defs env projCtx res = .ok d) :
    Definitions.mergeList ds = .ok d
    ∧ (∀ n, (lookupName d.artifacts n).isSome ↔
        ∃ b ∈ ds, (lookupName b.artifacts n).isSome)
    ∧ d.resources = (ds.map Definitions.resources).flatten := by
  rw [build_component_defs, hmap, exceptOkBind] at hd
  exact ⟨hd, fun n => mergeList_ok_mem ds d hd n, mergeList_ok_resources ds d hd⟩

/-- C9 witness: a concrete project with two discovered instances returns
the merge of the two per-path bundles. -/
theorem C9_multi_path_witness :
    Definitions.mergeList
        [{ artifacts := [(1, 11)], resources := [] },
         { artifacts := [(2, 22)], resources := [(9, 90)] }]
      = .ok { artifacts := [(1, 11), (2, 22)], resources := [(9, 90)] } :=
  (C9_multi_path_exact_merge multiSource sampleProject none
    [{ artifacts := [(1, 11)], resources := [] },
     { artifacts := [(2, 22)], resources := [(9, 90)] }]
    { artifacts := [(1, 11), (2, 22)], resources := [(9, 90)] } rfl rfl).1

/-- C10: build_components_from_component_folder requires the declaration at
the path to be a Folder: when the path resolves to nothing, to a Leaf or
to a foreign node, it fails on its assertion; when the path resolves to a
Folder it loads that folder under the context refocused on the folder
node, which differs from the given context only in its current
declaration node. -/
theorem C10_requires_folder_node (env : DeclSource) (ctx : ComponentLoadContext)
    (path : Nat) :
    (env.path_to_decl_node path = none →
      build_components_from_component_folder env ctx path = .error .assertionFailed)
    ∧ (∀ d, env.path_to_decl_node path = some (.yaml d) →
      build_components_from_component_folder env ctx path = .error .assertionFailed)
    ∧ (∀ tag, env.path_to_decl_node path = some (.unknown tag) →
      build_components_from_component_folder env ctx path = .error .assertionFailed)
    ∧ (∀ p subs, env.path_to_decl_node path = some (.folder p subs) →
      build_components_from_component_folder env ctx path
        = env.load (.folder p subs) (ctx.for_decl_node (.folder p subs))
      ∧ (ctx.for_decl_node (.folder p subs)).decl_node = .folder p subs
      ∧ (ctx.for_decl_node (.folder p subs)).rendering_scope = ctx.rendering_scope
      ∧ (ctx.for_decl_node (.folder p subs)).resources = ctx.resources
      ∧ (ctx.for_decl_node (.folder p subs)).registry = ctx.registry
      ∧ (ctx.for_decl_node (.folder p subs)).templated_value_resolver
          = ctx.templated_value_resolver) := by
  refine ⟨fun h => ?_, fun d h => ?_, fun tag h => ?_, fun p subs h => ?_⟩
  · simp [build_components_from_component_folder, h]
  · simp [build_components_from_component_folder, h]
  · simp [build_components_from_component_folder, h]
  · exact ⟨by simp [build_components_from_component_folder, h], rfl, rfl, rfl, rfl, rfl⟩

/-- C10 witness: a concrete source resolves path 2 to nothing, so the
folder loader fails its assertion there; and path 1 resolves to a folder,
so it loads that folder. -/
theorem C10_requires_folder_witness :
    sampleSource.path_to_decl_node 2 = none
    ∧ build_components_from_component_folder sampleSource sampleCtx 2
        = .error .assertionFailed
    ∧ sampleSource.path_to_decl_node 1 = some (.folder 1 [.yaml dA])
    ∧ build_components_from_component_folder sampleSource sampleCtx 1
        = sampleSource.load (.folder 1 [.yaml dA])
            (sampleCtx.for_decl_node (.folder 1 [.yaml dA])) :=
  ⟨rfl, (C10_requires_folder_node sampleSource sampleCtx 2).1 rfl, rfl,
    ((C10_requires_folder_node sampleSource sampleCtx 1).2.2.2 1 [.yaml dA] rfl).1⟩

end DagsterComponents
